import Mathlib

/-!
Verification of the WattCompare backend (`src/app.py`): a shallow embedding of
the energy extractor, the SQLite-backed appliance store, and the
`/add_appliance`, `/list_appliances` and `/compare` endpoints, together with
proofs of the specified properties.

Modelling conventions:
- Python floats are embedded as rationals (`ℚ`); the arithmetic in the source
  (`* 24 * 365 / 1000`, `* 0.82`, `energy_kwh * energy_rate`) is carried out
  exactly over `ℚ`.
- The OCR engine and image decoding are external capabilities (out of scope per
  the spec); the extractor is modelled on its input after OCR: the recognized
  text (the space-joined detected regions).  Digits and whitespace are modelled
  over their ASCII ranges, matching the inputs the regex is specified on.
- `None` / nullable SQLite columns are embedded as `Option`.
-/

namespace WattCompare

/-- ASCII whitespace, as matched by the whitespace class of the pattern
`(\d+\.?\d*)\s*(kwh|kw)` in `extract_energy_from_image`. -/
def isSpaceChar (c : Char) : Bool :=
  c == ' ' || c == '\t' || c == '\n' || c == '\r' || c == Char.ofNat 11 || c == Char.ofNat 12

/-- The maximal run of decimal digits at the head of the text (the greedy
`\d+` / `\d*` of the pattern). -/
def takeDigits (cs : List Char) : List Char :=
  cs.takeWhile Char.isDigit

/-- The text after the maximal run of decimal digits at the head. -/
def dropDigits (cs : List Char) : List Char :=
  cs.dropWhile Char.isDigit

/-- The text after the greedy `\s*` of the pattern. -/
def dropSpacesL (cs : List Char) : List Char :=
  cs.dropWhile isSpaceChar

/-- The fractional digits of the `\.?\d*` part: present only when the text
right after the integer digits starts with a dot. -/
def fracPart : List Char → List Char
  | '.' :: rest => takeDigits rest
  | _ => []

/-- The text after the `\.?\d*` part. -/
def afterFrac : List Char → List Char
  | '.' :: rest => dropDigits rest
  | cs => cs

/-- Numeric value of a digit string. -/
def digitsVal (ds : List Char) : Nat :=
  ds.foldl (fun a c => 10 * a + (c.toNat - '0'.toNat)) 0

/-- The value `float(group(1))` of the matched number `d1 [. d2]`. -/
def parsedVal (d1 d2 : List Char) : ℚ :=
  (digitsVal d1 : ℚ) + (digitsVal d2 : ℚ) / (10 : ℚ) ^ d2.length

/-- The unit alternatives `(kwh|kw)` of the pattern, `kwh` preferred (regex
alternation tries the alternatives left to right). -/
inductive EUnit where
  | kwh
  | kw
deriving DecidableEq

/-- Match the `(kwh|kw)` group at the head of the text. -/
def unitAt : List Char → Option EUnit
  | 'k' :: 'w' :: 'h' :: _ => some EUnit.kwh
  | 'k' :: 'w' :: _ => some EUnit.kw
  | _ => none

/-- One match attempt of `(\d+\.?\d*)\s*(kwh|kw)` anchored at the head of the
text, returning the parsed number and the unit.  The greedy sub-matches are
deterministic here: shrinking `\d+`/`\d*`/`\.?`/`\s*` always leaves the next
sub-pattern facing a digit, a dot or whitespace it cannot consume, so no
backtracking alternative can succeed when the greedy parse fails. -/
def matchNumUnit (cs : List Char) : Option (ℚ × EUnit) :=
  if takeDigits cs = [] then none
  else
    match unitAt (dropSpacesL (afterFrac (dropDigits cs))) with
    | some u => some (parsedVal (takeDigits cs) (fracPart (dropDigits cs)), u)
    | none => none

/-- Unit conversion of `extract_energy_from_image`: `kwh` values are used
as-is, `kw` values become `val * 24 * 365 / 1000`. -/
def convertVal (v : ℚ) : EUnit → ℚ
  | EUnit.kwh => v
  | EUnit.kw => v * 24 * 365 / 1000

/-- A match attempt anchored at the head of the text, with the unit conversion
applied. -/
def matchAt (cs : List Char) : Option ℚ :=
  (matchNumUnit cs).map (fun p => convertVal p.1 p.2)

/-- `re.search` semantics: try each start position left to right and return
the first (leftmost) successful match. -/
def searchFrom : List Char → Option ℚ
  | [] => none
  | c :: cs =>
    match matchAt (c :: cs) with
    | some v => some v
    | none => searchFrom cs

/-- `extract_energy_from_image` after OCR: the recognized text is lowercased,
searched for the leftmost `(\d+\.?\d*)\s*(kwh|kw)` match, and the converted
value (or `none`) is returned together with the lowercased text. -/
def extract_energy_from_image (recognized : String) : Option ℚ × String :=
  (searchFrom recognized.toLower.data, recognized.toLower)

/-! ## The appliance store -/

/-- One row of the `appliances` table.  `name` and `energy_kwh` are nullable;
the `timestamp` column (set by the database, never read by the endpoints under
verification) is omitted. -/
structure Row where
  id : Nat
  name : Option String
  energy_kwh : Option ℚ
  price : ℚ
  energy_rate : ℚ
deriving DecidableEq

/-- The SQLite store: the table rows in insertion (rowid) order, plus the
`AUTOINCREMENT` sequence value (the largest id ever assigned). -/
structure Store where
  rows : List Row
  seq : Nat
deriving DecidableEq

/-- The freshly created database. -/
def initStore : Store := ⟨[], 0⟩

/-- `INSERT INTO appliances (name, energy_kwh, price, energy_rate)`:
`AUTOINCREMENT` assigns an id strictly larger than any id ever used. -/
def Store.insert (s : Store) (name : Option String) (ek : Option ℚ)
    (price rate : ℚ) : Store × Nat :=
  (⟨s.rows ++ [⟨s.seq + 1, name, ek, price, rate⟩], s.seq + 1⟩, s.seq + 1)

/-- `SELECT * FROM appliances WHERE id IN (?, ?)`.  SQLite serves this from
the integer primary key: the matching rows come back in ascending rowid order,
independent of the order of the two bound parameters; since the table is
filled in ascending-id order, this is the filter of the stored row list. -/
def Store.getByIds (s : Store) (x y : Nat) : List Row :=
  s.rows.filter (fun r => r.id == x || r.id == y)

/-- `GET /list_appliances`: `SELECT * FROM appliances`, all rows in rowid
order. -/
def list_appliances (s : Store) : List Row := s.rows

/-! ## `/add_appliance` -/

/-- Python `float(str)` on the decimal-literal forms relevant here: optional
surrounding whitespace, optional sign, digits with an optional single dot,
at least one digit.  (Exponent/`inf`/`nan` forms do not occur in the inputs
considered.) -/
def pyFloatCore (cs : List Char) : Option ℚ :=
  if afterFrac (dropDigits cs) = [] ∧ ¬(takeDigits cs = [] ∧ fracPart (dropDigits cs) = []) then
    some (parsedVal (takeDigits cs) (fracPart (dropDigits cs)))
  else none

/-- Strip leading and trailing whitespace, as Python `float` does. -/
def trimSpaces (cs : List Char) : List Char :=
  ((cs.dropWhile isSpaceChar).reverse.dropWhile isSpaceChar).reverse

/-- Python `float(str)`: `none` models the `ValueError` raised on a malformed
literal. -/
def pyFloat (str : String) : Option ℚ :=
  match trimSpaces str.data with
  | '+' :: rest => pyFloatCore rest
  | '-' :: rest => (pyFloatCore rest).map (fun q => -q)
  | cs => pyFloatCore cs

/-- `float(request.form.get(field, 0))`: a missing field falls back to the
default `0`; a present field is parsed by `float`, which may raise. -/
def formNumber (field : Option String) : Option ℚ :=
  match field with
  | some str => pyFloat str
  | none => some 0

/-- The form data of a `POST /add_appliance` request.  An uploaded image is
represented by the recognized text OCR produces for it (the OCR engine itself
is an external capability). -/
structure AddForm where
  name : Option String
  price : Option String
  energy_rate : Option String
  image : Option String
deriving DecidableEq

/-- The energy figure stored for the optional image: absent image means
`energy_kwh = NULL`, otherwise the extractor's value. -/
def ocrEnergy (image : Option String) : Option ℚ :=
  image.bind (fun txt => (extract_energy_from_image txt).1)

/-- The `data` object echoed by a successful `POST /add_appliance`. -/
structure AddResp where
  name : Option String
  price : ℚ
  energy_kwh : Option ℚ
  energy_rate : ℚ
deriving DecidableEq

/-- `POST /add_appliance`: parse `price` and `energy_rate` (an unparseable
value raises `ValueError`, modelled by `none` — the request fails unhandled
with HTTP 500), run the extractor on the optional image, insert the row, and
echo the data.  No validation returns HTTP 400 on this route. -/
def add_appliance (s : Store) (f : AddForm) : Option (Store × AddResp) :=
  match formNumber f.price with
  | none => none
  | some price =>
    match formNumber f.energy_rate with
    | none => none
    | some rate =>
      some ((s.insert f.name (ocrEnergy f.image) price rate).1,
            ⟨f.name, price, ocrEnergy f.image, rate⟩)

/-! ## `/compare` -/

/-- `cost(a) = a[2] * a[4] if a[2] and a[4] else 0`: Python truthiness makes
`None` and `0.0` falsy, so the product is taken exactly when `energy_kwh` is
present and non-zero and `energy_rate` is non-zero. -/
def cost (a : Row) : ℚ :=
  match a.energy_kwh with
  | some e => if e ≠ 0 ∧ a.energy_rate ≠ 0 then e * a.energy_rate else 0
  | none => 0

/-- The cost rule as the specification words it: `annualCost = energyKwh *
energyRate` if both present and non-null/non-zero, else `0`. -/
def annualCostSpec (r : Row) : ℚ :=
  match r.energy_kwh with
  | some e => if e ≠ 0 ∧ r.energy_rate ≠ 0 then e * r.energy_rate else 0
  | none => 0

/-- The JSON comparison payload of a successful `/compare`. -/
structure ComparePayload where
  aName : Option String
  aCost : ℚ
  aCarbon : ℚ
  bName : Option String
  bCost : ℚ
  bCarbon : ℚ
  recommended : Option String
deriving DecidableEq

/-- The payload built from the two fetched rows: costs, `carbon = cost *
0.82`, and `better = a1 if cost1 < cost2 else a2`. -/
def comparePayloadOf (a1 a2 : Row) : ComparePayload :=
  ⟨a1.name, cost a1, cost a1 * (82 / 100),
   a2.name, cost a2, cost a2 * (82 / 100),
   (if cost a1 < cost a2 then a1 else a2).name⟩

/-- The possible responses of `POST /compare`.  `badRequest` is the HTTP 400
JSON error, `notFound` the HTTP 404 JSON error, `serverError` an unhandled
failure (the two-element unpacking raising on more than two rows). -/
inductive CompareResult where
  | badRequest
  | notFound
  | serverError
  | ok (p : ComparePayload)
deriving DecidableEq

/-- HTTP status code of a `/compare` response. -/
def httpStatus : CompareResult → Nat
  | CompareResult.badRequest => 400
  | CompareResult.notFound => 404
  | CompareResult.serverError => 500
  | CompareResult.ok _ => 200

/-- `POST /compare`: reject with 400 unless `ids` is a present list of exactly
two elements (`if not ids or len(ids) != 2`); fetch the matching rows; 404 if
fewer than two; unpack `a1, a2 = rows` (raising if more than two) and build
the payload. -/
def compare (s : Store) (ids : Option (List Nat)) : CompareResult :=
  match ids with
  | none => CompareResult.badRequest
  | some [i1, i2] =>
    match s.getByIds i1 i2 with
    | [a1, a2] => CompareResult.ok (comparePayloadOf a1 a2)
    | rows => if rows.length < 2 then CompareResult.notFound else CompareResult.serverError
  | some _ => CompareResult.badRequest

/-! ## Concrete fixtures (used by witnesses and counterexamples) -/

/-- A concrete `/add_appliance` form: name `A`, price `10`, rate `1`, image
whose recognized text reads `100kwh`. -/
def form1 : AddForm := ⟨some "A", some "10", some "1", some "100kwh"⟩

/-- The row `form1` produces. -/
def row1 : Row := ⟨1, some "A", some 100, 10, 1⟩

/-- The store after inserting `form1` into the fresh database. -/
def oneStore : Store := ⟨[row1], 1⟩

/-- The response echoed for `form1`. -/
def resp1 : AddResp := ⟨some "A", 10, some 100, 1⟩

/-- A second concrete form: name `B`, price `5`, rate `1`, image text
`80kwh`. -/
def form2 : AddForm := ⟨some "B", some "5", some "1", some "80kwh"⟩

/-- The row `form2` produces. -/
def row2 : Row := ⟨2, some "B", some 80, 5, 1⟩

/-- The store holding the two rows, ids 1 and 2, annual costs 100 and 80. -/
def twoStore : Store := ⟨[row1, row2], 2⟩

/-- The response echoed for `form2`. -/
def resp2 : AddResp := ⟨some "B", 5, some 80, 1⟩

/-- A form with the required numeric fields missing entirely. -/
def formMissing : AddForm := ⟨some "heater", none, none, none⟩

/-- The row persisted for `formMissing`: missing `price`/`energy_rate` become `0`. -/
def storeMissing : Store := ⟨[⟨1, some "heater", none, 0, 0⟩], 1⟩

/-- The response echoed for `formMissing`. -/
def respMissing : AddResp := ⟨some "heater", 0, none, 0⟩

/-- The comparison payload for `twoStore` with ids `[1, 2]`: costs 100 and 80,
carbons `82` and `65.6`, recommendation `B`. -/
def payload12 : ComparePayload := ⟨some "A", 100, 82, some "B", 80, 328 / 5, some "B"⟩

/-! ## Reachable stores and the store invariant -/

/-- The stores the running service can be in: the fresh database, extended by
successful `/add_appliance` requests (the only state-changing route). -/
inductive Reachable : Store → Prop where
  | init : Reachable initStore
  | step (s : Store) (f : AddForm) (s2 : Store) (resp : AddResp) :
      Reachable s → add_appliance s f = some (s2, resp) → Reachable s2

/-- The store invariant: every id is bounded by the sequence value, rows are
in strictly ascending id order, and every stored energy figure is
non-negative. -/
structure Inv (s : Store) : Prop where
  idLe : ∀ r ∈ s.rows, r.id ≤ s.seq
  sorted : s.rows.Pairwise (fun a b => a.id < b.id)
  nonneg : ∀ r ∈ s.rows, ∀ q, r.energy_kwh = some q → 0 ≤ q

/-! ## Extractor lemmas -/

theorem matchAt_nil : matchAt [] = none := by
  with_unfolding_all rfl

theorem searchFrom_some_iff (cs : List Char) (v : ℚ) :
    searchFrom cs = some v ↔
      ∃ i, matchAt (cs.drop i) = some v ∧ ∀ j, j < i → matchAt (cs.drop j) = none := by
  induction cs with
  | nil =>
      simp only [searchFrom, List.drop_nil, matchAt_nil]
      constructor
      · intro h; exact Option.noConfusion h
      · rintro ⟨i, hi, -⟩; exact Option.noConfusion hi
  | cons c cs ih =>
      cases hm : matchAt (c :: cs) with
      | some w =>
          simp only [searchFrom, hm]
          constructor
          · intro h
            exact ⟨0, by simpa [List.drop] using hm.trans h,
                   fun j hj => absurd hj (Nat.not_lt_zero j)⟩
          · rintro ⟨i, hi, hall⟩
            cases i with
            | zero => simpa [List.drop, hm] using hi
            | succ k =>
                have h0 := hall 0 (Nat.succ_pos k)
                rw [List.drop_zero] at h0
                exact absurd (hm.symm.trans h0) (by simp)
      | none =>
          simp only [searchFrom, hm]
          rw [ih]
          constructor
          · rintro ⟨i, hi, hall⟩
            refine ⟨i + 1, by simpa [List.drop_succ_cons] using hi, fun j hj => ?_⟩
            cases j with
            | zero => simpa [List.drop_zero] using hm
            | succ k => simpa [List.drop_succ_cons] using hall k (Nat.lt_of_succ_lt_succ hj)
          · rintro ⟨i, hi, hall⟩
            cases i with
            | zero =>
                rw [List.drop_zero] at hi
                exact absurd (hm.symm.trans hi) (by simp)
            | succ k =>
                refine ⟨k, by simpa [List.drop_succ_cons] using hi, fun j hj => ?_⟩
                simpa [List.drop_succ_cons] using hall (j + 1) (Nat.succ_lt_succ hj)

theorem searchFrom_none_iff (cs : List Char) :
    searchFrom cs = none ↔ ∀ i, matchAt (cs.drop i) = none := by
  induction cs with
  | nil => simp [searchFrom, List.drop_nil, matchAt_nil]
  | cons c cs ih =>
      cases hm : matchAt (c :: cs) with
      | some w =>
          simp only [searchFrom, hm]
          constructor
          · intro h; exact Option.noConfusion h
          · intro h
            have h0 := h 0
            rw [List.drop_zero] at h0
            exact absurd (hm.symm.trans h0) (by simp)
      | none =>
          simp only [searchFrom, hm]
          rw [ih]
          constructor
          · intro h i
            cases i with
            | zero => simpa [List.drop_zero] using hm
            | succ k => simpa [List.drop_succ_cons] using h k
          · intro h i
            simpa [List.drop_succ_cons] using h (i + 1)

theorem parsedVal_nonneg (d1 d2 : List Char) : 0 ≤ parsedVal d1 d2 := by
  unfold parsedVal
  positivity

theorem matchNumUnit_nonneg (cs : List Char) (v : ℚ) (u : EUnit)
    (h : matchNumUnit cs = some (v, u)) : 0 ≤ v := by
  unfold matchNumUnit at h
  split at h
  · exact Option.noConfusion h
  · cases hu : unitAt (dropSpacesL (afterFrac (dropDigits cs))) with
    | some u0 =>
        rw [hu] at h
        simp only [Option.some.injEq, Prod.mk.injEq] at h
        rw [← h.1]
        exact parsedVal_nonneg _ _
    | none => rw [hu] at h; exact Option.noConfusion h

theorem convertVal_nonneg (v : ℚ) (u : EUnit) (h : 0 ≤ v) : 0 ≤ convertVal v u := by
  cases u with
  | kwh => exact h
  | kw =>
      unfold convertVal
      positivity

theorem matchAt_nonneg (cs : List Char) (v : ℚ) (h : matchAt cs = some v) : 0 ≤ v := by
  unfold matchAt at h
  cases hm : matchNumUnit cs with
  | none => rw [hm] at h; exact Option.noConfusion h
  | some p =>
      rw [hm] at h
      simp only [Option.map_some', Option.some.injEq] at h
      rw [← h]
      exact convertVal_nonneg p.1 p.2 (matchNumUnit_nonneg cs p.1 p.2 (by rw [hm]))

theorem searchFrom_nonneg (cs : List Char) (v : ℚ) (h : searchFrom cs = some v) : 0 ≤ v := by
  induction cs with
  | nil => exact Option.noConfusion h
  | cons c cs ih =>
      rw [searchFrom] at h
      cases hm : matchAt (c :: cs) with
      | some w =>
          rw [hm] at h
          simp only [Option.some.injEq] at h
          rw [← h]
          exact matchAt_nonneg _ _ hm
      | none => rw [hm] at h; exact ih h

theorem ocrEnergy_nonneg (image : Option String) (q : ℚ)
    (h : ocrEnergy image = some q) : 0 ≤ q := by
  cases image with
  | none => exact Option.noConfusion h
  | some txt =>
      simp only [ocrEnergy, Option.some_bind] at h
      exact searchFrom_nonneg _ _ h

/-! ## Store lemmas -/

theorem insert_rows (s : Store) (name : Option String) (ek : Option ℚ) (price rate : ℚ) :
    (s.insert name ek price rate).1.rows
      = s.rows ++ [⟨s.seq + 1, name, ek, price, rate⟩] := rfl

theorem insert_seq (s : Store) (name : Option String) (ek : Option ℚ) (price rate : ℚ) :
    (s.insert name ek price rate).1.seq = s.seq + 1 := rfl

theorem insert_id (s : Store) (name : Option String) (ek : Option ℚ) (price rate : ℚ) :
    (s.insert name ek price rate).2 = s.seq + 1 := rfl

theorem insert_sorted (s : Store) (hle : ∀ r ∈ s.rows, r.id ≤ s.seq)
    (hsort : s.rows.Pairwise (fun a b => a.id < b.id)) (name : Option String)
    (ek : Option ℚ) (price rate : ℚ) :
    (s.insert name ek price rate).1.rows.Pairwise (fun a b => a.id < b.id) := by
  rw [insert_rows]
  refine List.pairwise_append.mpr ⟨hsort, List.pairwise_singleton _ _, ?_⟩
  intro a ha b hb
  rw [List.mem_singleton] at hb
  subst hb
  exact Nat.lt_succ_of_le (hle a ha)

theorem insert_inv (s : Store) (hs : Inv s) (name : Option String) (ek : Option ℚ)
    (price rate : ℚ) (hek : ∀ q, ek = some q → 0 ≤ q) :
    Inv (s.insert name ek price rate).1 := by
  refine ⟨?_, insert_sorted s hs.idLe hs.sorted name ek price rate, ?_⟩
  · intro r hr
    rw [insert_rows] at hr
    rw [insert_seq]
    rcases List.mem_append.mp hr with h | h
    · exact Nat.le_succ_of_le (hs.idLe r h)
    · rw [List.mem_singleton] at h
      subst h
      exact Nat.le_refl _
  · intro r hr q hq
    rw [insert_rows] at hr
    rcases List.mem_append.mp hr with h | h
    · exact hs.nonneg r h q hq
    · rw [List.mem_singleton] at h
      subst h
      exact hek q hq

theorem add_appliance_inv (s : Store) (f : AddForm) (s2 : Store) (resp : AddResp)
    (h : add_appliance s f = some (s2, resp)) :
    s2 = (s.insert f.name (ocrEnergy f.image) resp.price resp.energy_rate).1
      ∧ resp.name = f.name ∧ resp.energy_kwh = ocrEnergy f.image
      ∧ formNumber f.price = some resp.price
      ∧ formNumber f.energy_rate = some resp.energy_rate := by
  unfold add_appliance at h
  cases hp : formNumber f.price with
  | none => rw [hp] at h; exact Option.noConfusion h
  | some price =>
      rw [hp] at h
      cases hr : formNumber f.energy_rate with
      | none => rw [hr] at h; exact Option.noConfusion h
      | some rate =>
          rw [hr] at h
          simp only [Option.some.injEq, Prod.mk.injEq] at h
          obtain ⟨h1, h2⟩ := h
          subst h2
          exact ⟨h1.symm, rfl, rfl, rfl, rfl⟩

theorem reachable_inv (s : Store) (h : Reachable s) : Inv s := by
  induction h with
  | init =>
      exact ⟨fun r hr => absurd hr (List.not_mem_nil r),
             List.Pairwise.nil,
             fun r hr => absurd hr (List.not_mem_nil r)⟩
  | step s f s2 resp _ hadd ih =>
      obtain ⟨hs2, -, -, -, -⟩ := add_appliance_inv s f s2 resp hadd
      subst hs2
      exact insert_inv s ih f.name (ocrEnergy f.image) _ _
        (fun q hq => ocrEnergy_nonneg f.image q hq)

theorem ids_nodup_of_sorted (l : List Row)
    (h : l.Pairwise (fun a b => a.id < b.id)) : (l.map Row.id).Nodup :=
  List.pairwise_map.mpr (h.imp fun hlt => Nat.ne_of_lt hlt)

theorem getByIds_sublist (s : Store) (x y : Nat) :
    List.Sublist (s.getByIds x y) s.rows :=
  List.filter_sublist s.rows

theorem getByIds_comm (s : Store) (x y : Nat) : s.getByIds x y = s.getByIds y x := by
  unfold Store.getByIds
  congr 1
  funext r
  exact Bool.or_comm _ _

theorem filter_single_id_len (l : List Row) (hnd : (l.map Row.id).Nodup) (x : Nat) :
    (l.filter (fun r => r.id == x)).length ≤ 1 := by
  induction l with
  | nil => simp
  | cons r l ih =>
      rw [List.map_cons, List.nodup_cons] at hnd
      cases hrx : (r.id == x) with
      | true =>
          rw [List.filter_cons, if_pos (by simpa using hrx)]
          have hnil : l.filter (fun r => r.id == x) = [] := by
            rw [List.filter_eq_nil_iff]
            intro a ha hax
            apply hnd.1
            rw [List.mem_map]
            refine ⟨a, ha, ?_⟩
            have h1 : a.id = x := by simpa using hax
            have h2 : r.id = x := by simpa using hrx
            rw [h1, h2]
          rw [hnil]
          exact Nat.le_refl _
      | false =>
          rw [List.filter_cons, if_neg (by simp [hrx])]
          exact ih hnd.2

theorem getByIds_missing_len (s : Store) (hnd : (s.rows.map Row.id).Nodup) (x y : Nat)
    (h : (∀ r ∈ s.rows, r.id ≠ x) ∨ (∀ r ∈ s.rows, r.id ≠ y)) :
    (s.getByIds x y).length ≤ 1 := by
  unfold Store.getByIds
  rcases h with h | h
  · have : s.rows.filter (fun r => r.id == x || r.id == y)
        = s.rows.filter (fun r => r.id == y) := by
      apply List.filter_congr
      intro r hr
      have : (r.id == x) = false := by
        simpa using h r hr
      simp [this]
    rw [this]
    exact filter_single_id_len s.rows hnd y
  · have : s.rows.filter (fun r => r.id == x || r.id == y)
        = s.rows.filter (fun r => r.id == x) := by
      apply List.filter_congr
      intro r hr
      have : (r.id == y) = false := by
        simpa using h r hr
      simp [this]
    rw [this]
    exact filter_single_id_len s.rows hnd x

theorem getByIds_same_len (s : Store) (hnd : (s.rows.map Row.id).Nodup) (x : Nat) :
    (s.getByIds x x).length ≤ 1 := by
  unfold Store.getByIds
  have : s.rows.filter (fun r => r.id == x || r.id == x)
      = s.rows.filter (fun r => r.id == x) := by
    apply List.filter_congr
    intro r _
    exact Bool.or_self _
  rw [this]
  exact filter_single_id_len s.rows hnd x

/-! ## `/compare` lemmas -/

theorem compare_short_rows (s : Store) (i1 i2 : Nat)
    (h : (s.getByIds i1 i2).length ≤ 1) :
    compare s (some [i1, i2]) = CompareResult.notFound := by
  simp only [compare]
  cases hg : s.getByIds i1 i2 with
  | nil => simp
  | cons a l =>
      cases l with
      | nil => simp
      | cons b l2 =>
          rw [hg] at h
          simp at h

theorem compare_ok_inv (s : Store) (ids : Option (List Nat)) (p : ComparePayload)
    (h : compare s ids = CompareResult.ok p) :
    ∃ i1 i2 a1 a2, ids = some [i1, i2] ∧ s.getByIds i1 i2 = [a1, a2]
      ∧ p = comparePayloadOf a1 a2 := by
  rcases ids with - | l
  · exact absurd h (by simp [compare])
  rcases l with - | ⟨i1, l⟩
  · exact absurd h (by simp [compare])
  rcases l with - | ⟨i2, l⟩
  · exact absurd h (by simp [compare])
  rcases l with - | ⟨i3, l⟩
  case cons.cons.cons =>
    exact absurd h (by simp [compare])
  simp only [compare] at h
  cases hg : s.getByIds i1 i2 with
  | nil => rw [hg] at h; simp at h
  | cons a1 rest =>
      cases rest with
      | nil => rw [hg] at h; simp at h
      | cons a2 rest2 =>
          cases rest2 with
          | nil =>
              rw [hg] at h
              simp only [CompareResult.ok.injEq] at h
              exact ⟨i1, i2, a1, a2, rfl, hg, h.symm⟩
          | cons a3 rest3 =>
              rw [hg] at h
              simp only [List.length_cons] at h
              rw [if_neg (by omega)] at h
              exact CompareResult.noConfusion h

/-! ## Fixture facts -/

theorem oneStore_step : add_appliance initStore form1 = some (oneStore, resp1) := by
  with_unfolding_all rfl

theorem twoStore_step : add_appliance oneStore form2 = some (twoStore, resp2) := by
  with_unfolding_all rfl

theorem twoStore_reachable : Reachable twoStore :=
  Reachable.step oneStore form2 twoStore resp2
    (Reachable.step initStore form1 oneStore resp1 Reachable.init oneStore_step)
    twoStore_step

/-! ## The claims -/

/-- C1: for every recognized-text input, the extractor lowercases the text and
uses the leftmost position at which a decimal number followed by optional
whitespace and the unit `kwh` or `kw` matches; a `kwh` match returns the
number unchanged and a `kw` match returns it multiplied by `24 * 365 / 1000`;
when no position matches, no value is returned together with the text.
Concretely, `"consumption 250 kwh/year"` gives `250`, `"rated 0.5 kw"` gives
`4.38`, and a patternless text gives no value. -/
theorem C1_extractor_leftmost (recognized : String) :
    (extract_energy_from_image recognized).2 = recognized.toLower
    ∧ (∀ v : ℚ, (extract_energy_from_image recognized).1 = some v ↔
        ∃ i, matchAt (recognized.toLower.data.drop i) = some v
          ∧ ∀ j, j < i → matchAt (recognized.toLower.data.drop j) = none)
    ∧ ((extract_energy_from_image recognized).1 = none ↔
        ∀ i, matchAt (recognized.toLower.data.drop i) = none)
    ∧ (∀ cs w, matchNumUnit cs = some (w, EUnit.kwh) → matchAt cs = some w)
    ∧ (∀ cs w, matchNumUnit cs = some (w, EUnit.kw) →
        matchAt cs = some (w * 24 * 365 / 1000))
    ∧ extract_energy_from_image "consumption 250 kwh/year"
        = (some 250, "consumption 250 kwh/year")
    ∧ extract_energy_from_image "rated 0.5 kw" = (some (219 / 50), "rated 0.5 kw")
    ∧ extract_energy_from_image "plain text, nothing to match"
        = (none, "plain text, nothing to match") := by
  refine ⟨rfl, ?_, ?_, ?_, ?_, ?_, ?_, ?_⟩
  · intro v
    exact searchFrom_some_iff recognized.toLower.data v
  · exact searchFrom_none_iff recognized.toLower.data
  · intro cs w hcs
    unfold matchAt
    rw [hcs]
    rfl
  · intro cs w hcs
    unfold matchAt
    rw [hcs]
    rfl
  · with_unfolding_all rfl
  · with_unfolding_all rfl
  · with_unfolding_all rfl

theorem C1_witness :
    (extract_energy_from_image "rated 0.5 kw").2 = ("rated 0.5 kw" : String).toLower
    ∧ (∀ v : ℚ, (extract_energy_from_image "rated 0.5 kw").1 = some v ↔
        ∃ i, matchAt (("rated 0.5 kw" : String).toLower.data.drop i) = some v
          ∧ ∀ j, j < i → matchAt (("rated 0.5 kw" : String).toLower.data.drop j) = none)
    ∧ ((extract_energy_from_image "rated 0.5 kw").1 = none ↔
        ∀ i, matchAt (("rated 0.5 kw" : String).toLower.data.drop i) = none)
    ∧ (∀ cs w, matchNumUnit cs = some (w, EUnit.kwh) → matchAt cs = some w)
    ∧ (∀ cs w, matchNumUnit cs = some (w, EUnit.kw) →
        matchAt cs = some (w * 24 * 365 / 1000))
    ∧ extract_energy_from_image "consumption 250 kwh/year"
        = (some 250, "consumption 250 kwh/year")
    ∧ extract_energy_from_image "rated 0.5 kw" = (some (219 / 50), "rated 0.5 kw")
    ∧ extract_energy_from_image "plain text, nothing to match"
        = (none, "plain text, nothing to match") :=
  C1_extractor_leftmost "rated 0.5 kw"

/-- C2: every successful `/compare` response carries, for each of the two
fetched records, an annual cost equal to `energyKwh * energyRate` when both
are present and non-null/non-zero and `0` otherwise, and a carbon value equal
to that annual cost multiplied by `0.82` exactly. -/
theorem C2_compare_cost_carbon (s : Store) (ids : Option (List Nat)) (p : ComparePayload)
    (h : compare s ids = CompareResult.ok p) :
    ∃ i1 i2 a1 a2, ids = some [i1, i2] ∧ s.getByIds i1 i2 = [a1, a2]
      ∧ p.aCost = annualCostSpec a1 ∧ p.bCost = annualCostSpec a2
      ∧ p.aCarbon = p.aCost * (82 / 100) ∧ p.bCarbon = p.bCost * (82 / 100) := by
  obtain ⟨i1, i2, a1, a2, h1, h2, h3⟩ := compare_ok_inv s ids p h
  subst h3
  exact ⟨i1, i2, a1, a2, h1, h2, rfl, rfl, rfl, rfl⟩

theorem C2_witness :
    ∃ i1 i2 a1 a2, (some [1, 2] : Option (List Nat)) = some [i1, i2]
      ∧ twoStore.getByIds i1 i2 = [a1, a2]
      ∧ payload12.aCost = annualCostSpec a1 ∧ payload12.bCost = annualCostSpec a2
      ∧ payload12.aCarbon = payload12.aCost * (82 / 100)
      ∧ payload12.bCarbon = payload12.bCost * (82 / 100) :=
  C2_compare_cost_carbon twoStore (some [1, 2]) payload12 (by with_unfolding_all rfl)

/-- C3: every successful `/compare` recommends the record with strictly lower
annual cost, and when the two costs are equal the second fetched record is
recommended (the source comparison is a strict less-than). -/
theorem C3_compare_recommends_lower (s : Store) (ids : Option (List Nat)) (p : ComparePayload)
    (h : compare s ids = CompareResult.ok p) :
    ∃ i1 i2 a1 a2, ids = some [i1, i2] ∧ s.getByIds i1 i2 = [a1, a2]
      ∧ (cost a1 < cost a2 → p.recommended = a1.name)
      ∧ (cost a2 < cost a1 → p.recommended = a2.name)
      ∧ (cost a1 = cost a2 → p.recommended = a2.name) := by
  obtain ⟨i1, i2, a1, a2, h1, h2, h3⟩ := compare_ok_inv s ids p h
  subst h3
  refine ⟨i1, i2, a1, a2, h1, h2, ?_, ?_, ?_⟩
  · intro hlt
    show (if cost a1 < cost a2 then a1 else a2).name = a1.name
    rw [if_pos hlt]
  · intro hlt
    show (if cost a1 < cost a2 then a1 else a2).name = a2.name
    rw [if_neg (not_lt.mpr (le_of_lt hlt))]
  · intro heq
    show (if cost a1 < cost a2 then a1 else a2).name = a2.name
    rw [if_neg (by rw [heq]; exact lt_irrefl _)]

theorem C3_witness :
    ∃ i1 i2 a1 a2, (some [1, 2] : Option (List Nat)) = some [i1, i2]
      ∧ twoStore.getByIds i1 i2 = [a1, a2]
      ∧ (cost a1 < cost a2 → payload12.recommended = a1.name)
      ∧ (cost a2 < cost a1 → payload12.recommended = a2.name)
      ∧ (cost a1 = cost a2 → payload12.recommended = a2.name) :=
  C3_compare_recommends_lower twoStore (some [1, 2]) payload12 (by with_unfolding_all rfl)

/-- C4 counterexample: the claim says two equal identifiers are rejected with
HTTP 400, but the code only checks `len(ids) != 2`; with ids `[1, 1]` against
a store holding id 1, at most one row matches and `/compare` returns 404. -/
theorem C4_counterexample :
    compare twoStore (some [1, 1]) = CompareResult.notFound
    ∧ httpStatus (compare twoStore (some [1, 1])) = 404
    ∧ compare twoStore (some [1, 1]) ≠ CompareResult.badRequest := by
  have h : compare twoStore (some [1, 1]) = CompareResult.notFound := by
    with_unfolding_all rfl
  refine ⟨h, by rw [h]; rfl, ?_⟩
  intro hc
  rw [h] at hc
  exact CompareResult.noConfusion hc

/-- C4 (amended): `/compare` returns HTTP 400 with a JSON error body and no
comparison payload exactly when `ids` is missing or is not a list of exactly
two elements; a request with two equal identifiers passes this check and
instead yields 404, because at most one stored row can match. -/
theorem C4_amended_validation (s : Store) (ids : Option (List Nat)) (hs : Reachable s)
    (x : Nat) :
    ((ids = none ∨ ∃ l, ids = some l ∧ l.length ≠ 2) →
      compare s ids = CompareResult.badRequest ∧ httpStatus (compare s ids) = 400)
    ∧ (ids = some [x, x] → compare s ids = CompareResult.notFound) := by
  constructor
  · rintro (rfl | ⟨l, rfl, hlen⟩)
    · exact ⟨rfl, rfl⟩
    · rcases l with - | ⟨a, - | ⟨b, - | ⟨c, l⟩⟩⟩
      · exact ⟨rfl, rfl⟩
      · exact ⟨rfl, rfl⟩
      · simp at hlen
      · exact ⟨rfl, rfl⟩
  · intro hx
    subst hx
    exact compare_short_rows s x x
      (getByIds_same_len s (ids_nodup_of_sorted s.rows (reachable_inv s hs).sorted) x)

theorem C4_witness :
    (((some [1] : Option (List Nat)) = none
        ∨ ∃ l, (some [1] : Option (List Nat)) = some l ∧ l.length ≠ 2) →
      compare twoStore (some [1]) = CompareResult.badRequest
      ∧ httpStatus (compare twoStore (some [1])) = 400)
    ∧ ((some [1] : Option (List Nat)) = some [5, 5] →
      compare twoStore (some [1]) = CompareResult.notFound) :=
  C4_amended_validation twoStore (some [1]) twoStore_reachable 5

/-- C5: a `/compare` request with two distinct identifiers of which at least
one matches no stored record finds fewer than two rows and returns HTTP 404
with an error body and no comparison payload. -/
theorem C5_compare_missing_404 (s : Store) (hs : Reachable s) (x y : Nat) (_hxy : x ≠ y)
    (hmiss : (∀ r ∈ s.rows, r.id ≠ x) ∨ (∀ r ∈ s.rows, r.id ≠ y)) :
    compare s (some [x, y]) = CompareResult.notFound
    ∧ httpStatus (compare s (some [x, y])) = 404 := by
  have h := compare_short_rows s x y
    (getByIds_missing_len s (ids_nodup_of_sorted s.rows (reachable_inv s hs).sorted) x y hmiss)
  exact ⟨h, by rw [h]; rfl⟩

theorem C5_witness :
    compare twoStore (some [5, 1]) = CompareResult.notFound
    ∧ httpStatus (compare twoStore (some [5, 1])) = 404 :=
  C5_compare_missing_404 twoStore twoStore_reachable 5 1 (by decide)
    (Or.inl (by decide))

/-- C6: a record inserted through `/add_appliance` is reproduced by
`/list_appliances` with the submitted name, parsed price and energy rate, and
the extractor's energy figure, which is null when no image was supplied. -/
theorem C6_roundtrip (s : Store) (f : AddForm) (s2 : Store) (resp : AddResp)
    (h : add_appliance s f = some (s2, resp)) :
    ∃ r ∈ list_appliances s2,
      r.name = f.name
      ∧ formNumber f.price = some r.price
      ∧ formNumber f.energy_rate = some r.energy_rate
      ∧ r.energy_kwh = ocrEnergy f.image
      ∧ (f.image = none → r.energy_kwh = none) := by
  obtain ⟨hs2, -, -, hp, hr⟩ := add_appliance_inv s f s2 resp h
  subst hs2
  refine ⟨⟨s.seq + 1, f.name, ocrEnergy f.image, resp.price, resp.energy_rate⟩,
    ?_, rfl, hp, hr, rfl, ?_⟩
  · show _ ∈ s.rows ++ [_]
    exact List.mem_append_right _ (List.mem_singleton.mpr rfl)
  · intro himg
    show ocrEnergy f.image = none
    rw [himg]
    rfl

theorem C6_witness :
    ∃ r ∈ list_appliances oneStore,
      r.name = form1.name
      ∧ formNumber form1.price = some r.price
      ∧ formNumber form1.energy_rate = some r.energy_rate
      ∧ r.energy_kwh = ocrEnergy form1.image
      ∧ (form1.image = none → r.energy_kwh = none) :=
  C6_roundtrip initStore form1 oneStore resp1 oneStore_step

/-- C7: every insert into a reachable store yields a record whose id is
strictly greater than every id assigned before it, and the ids listed
afterwards are pairwise distinct (never reused or duplicated). -/
theorem C7_fresh_ids (s : Store) (hs : Reachable s) (name : Option String)
    (ek : Option ℚ) (price rate : ℚ) :
    (∃ r ∈ list_appliances (s.insert name ek price rate).1,
        r.id = (s.insert name ek price rate).2
        ∧ ∀ r2 ∈ list_appliances s, r2.id < r.id)
    ∧ ((list_appliances (s.insert name ek price rate).1).map Row.id).Nodup := by
  have hinv := reachable_inv s hs
  constructor
  · refine ⟨⟨s.seq + 1, name, ek, price, rate⟩, ?_, rfl, ?_⟩
    · show _ ∈ s.rows ++ [_]
      exact List.mem_append_right _ (List.mem_singleton.mpr rfl)
    · intro r2 h2
      exact Nat.lt_succ_of_le (hinv.idLe r2 h2)
  · exact ids_nodup_of_sorted _ (insert_sorted s hinv.idLe hinv.sorted name ek price rate)

theorem C7_witness :
    (∃ r ∈ list_appliances (twoStore.insert (some "C") none 1 2).1,
        r.id = (twoStore.insert (some "C") none 1 2).2
        ∧ ∀ r2 ∈ list_appliances twoStore, r2.id < r.id)
    ∧ ((list_appliances (twoStore.insert (some "C") none 1 2).1).map Row.id).Nodup :=
  C7_fresh_ids twoStore twoStore_reachable (some "C") none 1 2

/-- C8: in every reachable store each record's `energy_kwh` is either null or
non-negative; no API operation persists a negative energy value. -/
theorem C8_energy_nonneg (s : Store) (hs : Reachable s) :
    ∀ r ∈ list_appliances s, r.energy_kwh = none ∨ ∃ q, r.energy_kwh = some q ∧ 0 ≤ q := by
  intro r hr
  cases hek : r.energy_kwh with
  | none => exact Or.inl rfl
  | some q => exact Or.inr ⟨q, rfl, (reachable_inv s hs).nonneg r hr q hek⟩

theorem C8_witness :
    row1.energy_kwh = none ∨ ∃ q, row1.energy_kwh = some q ∧ 0 ≤ q :=
  C8_energy_nonneg twoStore twoStore_reachable row1 (List.mem_cons_self row1 [row2])

/-- C9 counterexample: the claim says a request with a missing required field
returns HTTP 400 and persists nothing, but `/add_appliance` with `price` and
`energy_rate` absent succeeds, defaults both to `0`, and persists the
record. -/
theorem C9_counterexample :
    add_appliance initStore formMissing = some (storeMissing, respMissing)
    ∧ storeMissing.rows.length = 1 :=
  ⟨by with_unfolding_all rfl, rfl⟩

/-- C9 (amended): `/add_appliance` performs no field validation: a missing
`price` or `energy_rate` is defaulted to `0` and the record is persisted with
a success response rather than rejected with HTTP 400 (an unparseable value
raises an unhandled error instead). -/
theorem C9_missing_fields_default (s : Store) (f : AddForm)
    (hp : f.price = none) (hr : f.energy_rate = none) :
    ∃ s2 resp, add_appliance s f = some (s2, resp)
      ∧ resp.price = 0 ∧ resp.energy_rate = 0
      ∧ s2.rows.length = s.rows.length + 1 := by
  refine ⟨(s.insert f.name (ocrEnergy f.image) 0 0).1,
    ⟨f.name, 0, ocrEnergy f.image, 0⟩, ?_, rfl, rfl, ?_⟩
  · have h1 : formNumber f.price = some 0 := by rw [hp]; rfl
    have h2 : formNumber f.energy_rate = some 0 := by rw [hr]; rfl
    unfold add_appliance
    rw [h1, h2]
  · rw [insert_rows]
    simp

theorem C9_witness :
    ∃ s2 resp, add_appliance initStore formMissing = some (s2, resp)
      ∧ resp.price = 0 ∧ resp.energy_rate = 0
      ∧ s2.rows.length = initStore.rows.length + 1 :=
  C9_missing_fields_default initStore formMissing rfl rfl

/-- C10: `/compare` with ids `[x, y]` and with ids `[y, x]` produce the
identical response, and the two matching rows are retrieved in ascending id
order — the A/B labelling and the tie-breaking second record are fixed by the
store's retrieval order, not the order of the identifiers in the request. -/
theorem C10_compare_symmetric (s : Store) (x y : Nat) (hs : Reachable s) :
    compare s (some [x, y]) = compare s (some [y, x])
    ∧ (s.getByIds x y).Pairwise (fun a b => a.id < b.id) := by
  constructor
  · have hg := getByIds_comm s x y
    simp only [compare, hg]
  · exact List.Pairwise.sublist (getByIds_sublist s x y) (reachable_inv s hs).sorted

theorem C10_witness :
    compare twoStore (some [1, 2]) = compare twoStore (some [2, 1])
    ∧ (twoStore.getByIds 1 2).Pairwise (fun a b => a.id < b.id) :=
  C10_compare_symmetric twoStore 1 2 twoStore_reachable

end WattCompare
